import Mathlib

/-!
Verification of the `vm-starter` program (Go, `main.go`).

The program is a linear pipeline: acquire a bearer token, list
subscriptions, for each subscription list VMs, and POST a start request
for every VM.  The shallow embedding below translates `main.go`:

* `findSub` models `strings.Index` (first occurrence of a pattern, at
  the level of character lists; every character relevant to index
  arithmetic in the program is ASCII, so byte positions and character
  positions coincide);
* `parseResourceGroup` models `parseResourceGroup`;
* `sendRequest` models `sendRequest` (fallible request creation, headers,
  timeout, and raw propagation of the transport outcome);
* `main` models `func main`, with the HTTP world abstracted into an
  `Env` of per-call outcomes; it returns the sequence of events
  (token acquisition, issued requests), the log lines written, and the
  process exit code.
-/

/-- Model of `strings.Index s pat`: index of the first occurrence of
`pat` in `s`, or `none` when there is no occurrence (Go returns `-1`). -/
def findSub : List Char → List Char → Option Nat
  | [], pat => if pat.isPrefixOf [] then some 0 else none
  | a :: t, pat =>
    if pat.isPrefixOf (a :: t) then some 0
    else (findSub t pat).map (· + 1)

/-- The literal `rgMarker` from `parseResourceGroup`. -/
def rgMarker : List Char := "/resourceGroups/".data

/-- `pat` occurs as a contiguous run inside `s`. -/
def containsSub (pat s : List Char) : Prop := ∃ u v, s = u ++ pat ++ v

/-- `parseResourceGroup` from `main.go`, on character lists.  The local
`sub := resourceID[rgIdx+len(rgMarker):]` is inlined. -/
def parseResourceGroupL (resourceID : List Char) : List Char :=
  match findSub resourceID rgMarker with
  | none => []
  | some rgIdx =>
    match findSub (resourceID.drop (rgIdx + rgMarker.length)) ['/'] with
    | none => resourceID.drop (rgIdx + rgMarker.length)
    | some endIdx => (resourceID.drop (rgIdx + rgMarker.length)).take endIdx

/-- `parseResourceGroup` on strings. -/
def parseResourceGroup (resourceID : String) : String :=
  String.mk (parseResourceGroupL resourceID.data)

theorem isPrefixOf_iff_exists (pat s : List Char) :
    pat.isPrefixOf s = true ↔ ∃ t, s = pat ++ t := by
  induction pat generalizing s with
  | nil => simp [List.isPrefixOf]
  | cons a ps ih =>
    cases s with
    | nil => simp [List.isPrefixOf]
    | cons b bs =>
      simp only [List.isPrefixOf, Bool.and_eq_true, beq_iff_eq, ih,
        List.cons_append, List.cons.injEq]
      constructor
      · rintro ⟨hab, t, ht⟩
        exact ⟨t, hab.symm, ht⟩
      · rintro ⟨t, hab, ht⟩
        exact ⟨hab.symm, t, ht⟩

theorem findSub_of_containsSub (s pat : List Char)
    (h : containsSub pat s) : findSub s pat ≠ none := by
  obtain ⟨u, v, huv⟩ := h
  subst huv
  induction u with
  | nil =>
    have hpre : pat.isPrefixOf (pat ++ v) = true :=
      (isPrefixOf_iff_exists pat (pat ++ v)).mpr ⟨v, rfl⟩
    cases pat with
    | nil =>
      cases v with
      | nil => simp [findSub]
      | cons b bs => simp [findSub, List.isPrefixOf]
    | cons c cs =>
      simp only [List.nil_append] at hpre ⊢
      simp [findSub, hpre]
  | cons a u' ih =>
    simp only [List.cons_append]
    rw [findSub]
    split
    · simp
    · simp only [ne_eq, Option.map_eq_none']
      simpa using ih

theorem containsSub_of_findSub (s pat : List Char) (i : Nat)
    (h : findSub s pat = some i) : containsSub pat s := by
  induction s generalizing i with
  | nil =>
    rw [findSub] at h
    split at h
    · rename_i hpre
      rw [isPrefixOf_iff_exists] at hpre
      obtain ⟨t, ht⟩ := hpre
      exact ⟨[], t, by simpa using ht⟩
    · exact absurd h (by simp)
  | cons a t ih =>
    rw [findSub] at h
    split at h
    · rename_i hpre
      rw [isPrefixOf_iff_exists] at hpre
      obtain ⟨u, hu⟩ := hpre
      exact ⟨[], u, by simpa using hu⟩
    · rw [Option.map_eq_some'] at h
      obtain ⟨i', hi', _⟩ := h
      obtain ⟨u, v, huv⟩ := ih i' hi'
      exact ⟨a :: u, v, by simp [huv]⟩

theorem findSub_none_iff (s pat : List Char) :
    findSub s pat = none ↔ ¬ containsSub pat s := by
  constructor
  · intro hnone hc
    exact findSub_of_containsSub s pat hc hnone
  · intro hnc
    cases hfs : findSub s pat with
    | none => rfl
    | some i => exact absurd (containsSub_of_findSub s pat i hfs) hnc

instance (pat s : List Char) : Decidable (containsSub pat s) := by
  refine decidable_of_iff (¬ findSub s pat = none) ?_
  rw [findSub_none_iff, not_not]

/-- `findSub` returns the first occurrence: if `pat` heads the suffix at
`i` and heads no earlier suffix, the result is `some i`. -/
theorem findSub_eq_some_first (s pat : List Char) (i : Nat)
    (h1 : pat.isPrefixOf (s.drop i) = true)
    (h2 : ∀ j, j < i → ¬ pat.isPrefixOf (s.drop j) = true) :
    findSub s pat = some i := by
  induction s generalizing i with
  | nil =>
    cases i with
    | zero => simpa [findSub] using h1
    | succ k =>
      exfalso
      refine h2 0 (Nat.succ_pos k) ?_
      simpa using h1
  | cons a t ih =>
    cases i with
    | zero =>
      rw [findSub]
      simp only [List.drop_zero] at h1
      simp [h1]
    | succ k =>
      have hne : ¬ pat.isPrefixOf (a :: t) = true := by
        simpa using h2 0 (Nat.succ_pos k)
      rw [findSub, if_neg hne]
      have ht : findSub t pat = some k := by
        refine ih k (by simpa using h1) ?_
        intro j hj
        simpa using h2 (j + 1) (by omega)
      simp [ht]

/-- Helper for the straddling-occurrence argument: an occurrence of
`pat` at position `j` with `j + pat.length ≤ n` is an occurrence inside
`s.take n`. -/
theorem containsSub_take_of_isPrefixOf_drop (s pat : List Char) (j n : Nat)
    (hj : j ≤ s.length)
    (h : pat.isPrefixOf (s.drop j) = true)
    (hn : j + pat.length ≤ n) :
    containsSub pat (s.take n) := by
  rw [isPrefixOf_iff_exists] at h
  obtain ⟨t, ht⟩ := h
  have hs : s = s.take j ++ (pat ++ t) := by
    conv_lhs => rw [← List.take_append_drop j s]
    rw [ht]
  refine ⟨s.take j, t.take (n - j - pat.length), ?_⟩
  have hlenj : (s.take j).length = j := by
    rw [List.length_take]
    omega
  have htk1 : List.take n (s.take j) = s.take j :=
    List.take_of_length_le (by rw [hlenj]; omega)
  have htk2 : List.take (n - (s.take j).length) pat = pat :=
    List.take_of_length_le (by rw [hlenj]; omega)
  conv_lhs => rw [hs]
  rw [List.take_append_eq_append_take, htk1, List.take_append_eq_append_take, htk2, hlenj,
    List.append_assoc]

/-- The marker has length 16 and ends in a slash. -/
theorem rgMarker_split : rgMarker = rgMarker.dropLast ++ ['/'] := by decide

/-- When the marker does not occur strictly before the shown occurrence
(no occurrence fits inside `pre` followed by the marker minus its final
slash), `findSub` locates the marker exactly at `pre.length`. -/
theorem findSub_marker (pre tail : List Char)
    (hno : ¬ containsSub rgMarker (pre ++ rgMarker.dropLast)) :
    findSub (pre ++ (rgMarker ++ tail)) rgMarker = some pre.length := by
  apply findSub_eq_some_first
  · rw [List.drop_left]
    exact (isPrefixOf_iff_exists _ _).mpr ⟨tail, rfl⟩
  · intro j hj hpre
    apply hno
    have hgoal : containsSub rgMarker
        ((pre ++ (rgMarker ++ tail)).take (pre ++ rgMarker.dropLast).length) := by
      have h16 : rgMarker.length = 16 := by decide
      have h15 : rgMarker.dropLast.length = 15 := by decide
      apply containsSub_take_of_isPrefixOf_drop _ _ j _ _ hpre
      all_goals simp only [List.length_append, h16, h15]
      all_goals omega
    have hrw : (pre ++ (rgMarker ++ tail)).take (pre ++ rgMarker.dropLast).length
        = pre ++ rgMarker.dropLast := by
      have : pre ++ (rgMarker ++ tail)
          = (pre ++ rgMarker.dropLast) ++ ('/' :: tail) := by
        conv_lhs => rw [rgMarker_split]
        simp
      rw [this, List.take_left]
    rwa [hrw] at hgoal

/-- `findSub` for a single character absent from `l` finds the first
explicit occurrence. -/
theorem findSub_single (l r : List Char) (c : Char) (h : c ∉ l) :
    findSub (l ++ c :: r) [c] = some l.length := by
  induction l with
  | nil =>
    simp only [List.nil_append, List.length_nil]
    have hcond : [c].isPrefixOf (c :: r) = true :=
      (isPrefixOf_iff_exists _ _).mpr ⟨r, rfl⟩
    rw [findSub, if_pos hcond]
  | cons a l' ih =>
    have hca : ¬ (c = a) := fun hc => h (hc ▸ List.mem_cons_self a l')
    have hcond : ¬ ([c].isPrefixOf (a :: (l' ++ c :: r)) = true) := by
      rw [isPrefixOf_iff_exists]
      rintro ⟨t, ht⟩
      simp only [List.singleton_append, List.cons.injEq] at ht
      exact hca ht.1.symm
    simp only [List.cons_append]
    rw [findSub, if_neg hcond, ih (fun hm => h (List.mem_cons_of_mem a hm))]
    simp

/-- A character absent from `l` is not found. -/
theorem findSub_single_none (l : List Char) (c : Char) (h : c ∉ l) :
    findSub l [c] = none := by
  induction l with
  | nil => simp [findSub, List.isPrefixOf]
  | cons a l' ih =>
    have hca : ¬ (c = a) := fun hc => h (hc ▸ List.mem_cons_self a l')
    have hcond : ¬ ([c].isPrefixOf (a :: l') = true) := by
      rw [isPrefixOf_iff_exists]
      rintro ⟨t, ht⟩
      simp only [List.singleton_append, List.cons.injEq] at ht
      exact hca ht.1.symm
    rw [findSub, if_neg hcond, ih (fun hm => h (List.mem_cons_of_mem a hm))]
    rfl

/-- If `findSub` does not find character `c`, then `c` is absent. -/
theorem not_mem_of_findSub_single_none (l : List Char) (c : Char)
    (h : findSub l [c] = none) : c ∉ l := by
  induction l with
  | nil => simp
  | cons a l' ih =>
    rw [findSub] at h
    split at h
    · exact absurd h (by simp)
    · rename_i hcond
      rw [Option.map_eq_none'] at h
      rw [isPrefixOf_iff_exists] at hcond
      simp only [not_exists] at hcond
      have hca : c ≠ a := by
        intro hc
        exact hcond l' (by simp [hc])
      simp only [List.mem_cons, not_or]
      exact ⟨hca, ih h⟩

/-- The prefix of `l` strictly before the first occurrence of `c` does
not contain `c`. -/
theorem not_mem_take_of_findSub_single (l : List Char) (c : Char) (i : Nat)
    (h : findSub l [c] = some i) : c ∉ l.take i := by
  induction l generalizing i with
  | nil => simp
  | cons a l' ih =>
    rw [findSub] at h
    split at h
    · have : i = 0 := by simpa using h.symm
      simp [this]
    · rename_i hcond
      rw [Option.map_eq_some'] at h
      obtain ⟨i', hi', hii⟩ := h
      rw [isPrefixOf_iff_exists] at hcond
      simp only [not_exists] at hcond
      have hca : c ≠ a := by
        intro hc
        exact hcond l' (by simp [hc])
      subst hii
      simp only [List.take_succ_cons, List.mem_cons, not_or]
      exact ⟨hca, ih i' hi'⟩

theorem parseResourceGroup_mk (l : List Char) :
    parseResourceGroup (String.mk l) = String.mk (parseResourceGroupL l) := rfl

/-- Main computation: when the identifier is `pre ++ marker ++ name ++ "/" ++ post`
with the shown marker occurrence the first one and `name` slash-free, the
extraction returns `name`. -/
theorem parseResourceGroupL_found (pre name post : List Char)
    (hno : ¬ containsSub rgMarker (pre ++ rgMarker.dropLast))
    (hname : ('/' : Char) ∉ name) :
    parseResourceGroupL (pre ++ (rgMarker ++ (name ++ '/' :: post))) = name := by
  have hfs := findSub_marker pre (name ++ '/' :: post) hno
  have hdrop : (pre ++ (rgMarker ++ (name ++ '/' :: post))).drop (pre.length + rgMarker.length)
      = name ++ '/' :: post := by
    rw [← List.length_append pre rgMarker, ← List.append_assoc, List.drop_left]
  simp only [parseResourceGroupL, hfs, hdrop, findSub_single name post '/' hname,
    List.take_left]

/-- Without the marker the extraction returns the empty list. -/
theorem parseResourceGroupL_notfound (s : List Char)
    (hno : ¬ containsSub rgMarker s) : parseResourceGroupL s = [] := by
  have h : findSub s rgMarker = none := (findSub_none_iff s rgMarker).mpr hno
  simp only [parseResourceGroupL, h]

/-- When no slash follows the marker, the whole suffix is returned. -/
theorem parseResourceGroupL_noslash (pre suffix : List Char)
    (hno : ¬ containsSub rgMarker (pre ++ rgMarker.dropLast))
    (hs : ('/' : Char) ∉ suffix) :
    parseResourceGroupL (pre ++ (rgMarker ++ suffix)) = suffix := by
  have hfs := findSub_marker pre suffix hno
  have hdrop : (pre ++ (rgMarker ++ suffix)).drop (pre.length + rgMarker.length)
      = suffix := by
    rw [← List.length_append pre rgMarker, ← List.append_assoc, List.drop_left]
  simp only [parseResourceGroupL, hfs, hdrop, findSub_single_none suffix '/' hs]

/-- Claim C1: for every resource identifier containing a `/resourceGroups/<name>/`
segment (the displayed occurrence of the marker being its first occurrence,
and `<name>` being a path segment, i.e. slash-free), `parseResourceGroup`
returns exactly `<name>`; for every identifier not containing the marker
`/resourceGroups/`, it returns the empty string. -/
theorem vmstarter_c1 :
    (∀ pre name post : List Char,
        ¬ containsSub rgMarker (pre ++ rgMarker.dropLast) →
        ('/' : Char) ∉ name →
        parseResourceGroup (String.mk (pre ++ (rgMarker ++ (name ++ '/' :: post))))
          = String.mk name)
    ∧ ∀ s : String, ¬ containsSub rgMarker s.data → parseResourceGroup s = "" := by
  constructor
  · intro pre name post hno hname
    rw [parseResourceGroup_mk, parseResourceGroupL_found pre name post hno hname]
  · intro s hno
    unfold parseResourceGroup
    rw [parseResourceGroupL_notfound s.data hno]

/-- Witness for C1 at the concrete identifier of the spec's example (§8)
and at a marker-free identifier. -/
theorem vmstarter_c1_witness :
    parseResourceGroup (String.mk ("/subscriptions/sub-1".data ++ (rgMarker ++
        ("rg-a".data ++ '/' :: "providers/Microsoft.Compute/virtualMachines/vm1".data))))
      = String.mk "rg-a".data
    ∧ parseResourceGroup "no-marker-here" = "" :=
  ⟨vmstarter_c1.1 "/subscriptions/sub-1".data "rg-a".data
      "providers/Microsoft.Compute/virtualMachines/vm1".data (by decide) (by decide),
   vmstarter_c1.2 "no-marker-here" (by decide)⟩

/-- Claim C9: for every input string, the string returned by `parseResourceGroup`
contains no `/` character. -/
theorem vmstarter_c9 (s : String) : ('/' : Char) ∉ (parseResourceGroup s).data := by
  show ('/' : Char) ∉ parseResourceGroupL s.data
  cases h1 : findSub s.data rgMarker with
  | none => simp [parseResourceGroupL, h1]
  | some rgIdx =>
    cases h2 : findSub (s.data.drop (rgIdx + rgMarker.length)) ['/'] with
    | none =>
      simp only [parseResourceGroupL, h1, h2]
      exact not_mem_of_findSub_single_none _ _ h2
    | some endIdx =>
      simp only [parseResourceGroupL, h1, h2]
      exact not_mem_take_of_findSub_single _ _ _ h2

/-- Claim C10: when the marker occurs (first at the displayed position) but no `/`
follows it, `parseResourceGroup` returns the entire suffix after the marker
rather than the empty string. -/
theorem vmstarter_c10 (pre suffix : List Char)
    (hno : ¬ containsSub rgMarker (pre ++ rgMarker.dropLast))
    (hs : ('/' : Char) ∉ suffix) :
    parseResourceGroup (String.mk (pre ++ (rgMarker ++ suffix))) = String.mk suffix := by
  rw [parseResourceGroup_mk, parseResourceGroupL_noslash pre suffix hno hs]

/-- Witness for C10 at the concrete identifier
`/subscriptions/s/resourceGroups/rg-a`. -/
theorem vmstarter_c10_witness :
    parseResourceGroup (String.mk ("/subscriptions/s".data ++ (rgMarker ++ "rg-a".data)))
      = String.mk "rg-a".data :=
  vmstarter_c10 "/subscriptions/s".data "rg-a".data (by decide) (by decide)

/-! ## Model of the HTTP pipeline in `func main` -/

/-- API version constants from `main.go`. -/
def subscriptionAPI : String := "2022-12-01"

def vmAPI : String := "2025-04-01"

def azureResource : String := "https://management.azure.com/.default"

/-- `http.StatusOK`. -/
def statusOK : Nat := 200

/-- `http.StatusAccepted`. -/
def statusAccepted : Nat := 202

/-- `http.MethodGet` / `http.MethodPost`. -/
inductive Method where
  | GET
  | POST
deriving DecidableEq, Repr

/-- One HTTP request as issued by `main` through `sendRequest`: method,
URL, and the bearer token attached to it. -/
structure Request where
  method : Method
  url : String
  token : String
deriving DecidableEq, Repr

/-- Severity tags of the program's log lines. -/
inductive LogLevel where
  | info
  | err
  | dbg
deriving DecidableEq, Repr

/-- One log line written to stdout/stderr. -/
structure LogLine where
  level : LogLevel
  msg : String
deriving DecidableEq, Repr

/-- Outcome of one GET whose 200-body is decoded into `α`:
either a transport error from `client.Do`, or a response with a status
code together with what `json.Decode` yields on its body. -/
inductive CallResult (α : Type) where
  | transportError (msg : String)
  | http (status : Nat) (decoded : Except String α)

/-- Outcome of one start POST (its body is never decoded). -/
inductive StartResult where
  | transportError (msg : String)
  | http (status : Nat)

/-- An element of the VM list response: `id` and `name` are decoded from
JSON; `resourceGroup` is "set from parsing" by the loop in `main`. -/
structure VirtualMachine where
  id : String
  name : String
  resourceGroup : String
deriving DecidableEq, Repr

/-- The external world of one run: the credential provider's answer and
the outcome of each HTTP call.  VM-list outcomes are indexed by the
position of the subscription in the decoded subscription list; start
outcomes by (subscription position, VM position). -/
structure Env where
  tokenRes : Except String String
  subsRes : CallResult (List String)
  vmsRes : Nat → CallResult (List VirtualMachine)
  startRes : Nat → Nat → StartResult

/-- External events of a run: one token acquisition, plus issued requests. -/
inductive Event where
  | acquireToken (result : Except String String)
  | request (r : Request)

/-- Observable behaviour of a run. -/
structure Output where
  events : List Event
  logs : List LogLine
  exitCode : Nat

/-- The requests among a run's events, in order. -/
def Output.requests (o : Output) : List Request :=
  o.events.filterMap fun e =>
    match e with
    | .request r => some r
    | .acquireToken _ => none

def Event.isAcquire : Event → Bool
  | .acquireToken _ => true
  | .request _ => false

def Request.isGet : Request → Bool
  | ⟨.GET, _, _⟩ => true
  | ⟨.POST, _, _⟩ => false

/-- `getAzureAccessToken`: delegated entirely to the credential
provider, so in the model it is the environment's answer. -/
def getAzureAccessToken (env : Env) : Except String String := env.tokenRes

/-- The subscription-list URL built in `main`. -/
def subscriptionURL : String :=
  "https://management.azure.com/subscriptions?api-version=" ++ subscriptionAPI

/-- The VM-list URL built in `main` for one subscription. -/
def vmListURL (subscriptionID : String) : String :=
  "https://management.azure.com/subscriptions/" ++ subscriptionID ++
    "/providers/Microsoft.Compute/virtualMachines?api-version=" ++ vmAPI

/-- The start-action URL built in `main` for one VM. -/
def startURL (subscriptionID resourceGroup vmName : String) : String :=
  "https://management.azure.com/subscriptions/" ++ subscriptionID ++
    "/resourceGroups/" ++ resourceGroup ++
    "/providers/Microsoft.Compute/virtualMachines/" ++ vmName ++
    "/start?api-version=" ++ vmAPI

/-- Model of `sendRequest` from `main.go`.  `newRequest` stands for the
validation performed by `http.NewRequestWithContext(ctx, method, url, nil)`
(its outcome depends only on the method and URL strings; the library's
parsing logic itself is external); a transport function stands for
`client.Do`.  On successful creation the request carries exactly the given
method, URL, and a nil body, `Header.Set` adds the two headers, and the
client timeout is 30 seconds.  On a creation error, `sendRequest` wraps it
with `failed to create request:` and returns without any transport call.
The `body` parameter exists in the source but is ignored there. -/
structure HttpRequest where
  method : String
  url : String
  headers : List (String × String)
  body : Option (List Nat)
  timeoutSeconds : Nat
deriving DecidableEq, Repr

structure HttpResponse where
  statusCode : Nat
  responseBody : String
deriving DecidableEq, Repr

def sendRequest (newRequest : String → String → Except String Unit)
    (transport : HttpRequest → Except String HttpResponse)
    (method url token : String) (_body : Option (List Nat)) :
    Except String HttpResponse :=
  match newRequest method url with
  | .error e => .error ("failed to create request: " ++ e)
  | .ok _ =>
    transport
      ⟨method, url,
        [("Authorization", "Bearer " ++ token), ("Content-Type", "application/json")],
        none, 30⟩

/-- The inner `for _, vm := range vms.Value` loop of `main`: issues one
start POST per VM and logs the outcome.  `j` is the VM's position used
to look up its outcome in the environment. -/
def vmStartLoop (token : String) (env : Env) (i : Nat) (subscriptionID : String) :
    Nat → List VirtualMachine → List Request × List LogLine
  | _, [] => ([], [])
  | j, vm :: rest =>
    let url := startURL subscriptionID vm.resourceGroup vm.name
    let dbgLine : LogLine :=
      ⟨.dbg, "[DBG]: Sending POST request to start VM.\n    SubscriptionID: " ++
        subscriptionID ++ "\n    ResourceGroup: " ++ vm.resourceGroup ++
        "\n    VM Name: " ++ vm.name ++ "\n    URL: " ++ url ++ "\n"⟩
    let outcome : LogLine :=
      match env.startRes i j with
      | .transportError e =>
        ⟨.err, "[ERR]: Failed to start VM " ++ vm.name ++ ": " ++ e ++ "\n"⟩
      | .http status =>
        if status = statusAccepted then
          ⟨.info, "[INF]: VM " ++ vm.name ++ " start request accepted\n"⟩
        else
          ⟨.err, "[ERR]: Unexpected status for starting VM " ++ vm.name ++ ": " ++
            toString status ++ "\n    SubscriptionID: " ++ subscriptionID ++
            "\n    ResourceGroup: " ++ vm.resourceGroup ++ "\n    VM Name: " ++
            vm.name ++ "\n    URL: " ++ url ++ "\n"⟩
    let rest' := vmStartLoop token env i subscriptionID (j + 1) rest
    (⟨.POST, url, token⟩ :: rest'.1, dbgLine :: outcome :: rest'.2)

/-- The body of the `for _, sub := range subsResp.Value` loop for one
subscription at position `i`. -/
def subscriptionStep (token : String) (env : Env) (i : Nat) (subscriptionID : String) :
    List Request × List LogLine :=
  let infoLine : LogLine := ⟨.info, "[INF]: Processing subscription " ++ subscriptionID ++ "\n"⟩
  let req : Request := ⟨.GET, vmListURL subscriptionID, token⟩
  match env.vmsRes i with
  | .transportError e =>
    ([req], [infoLine,
      ⟨.err, "[ERR]: Failed to fetch VMs for " ++ subscriptionID ++ ": " ++ e ++ "\n"⟩])
  | .http status decoded =>
    if status = statusOK then
      match decoded with
      | .error e =>
        ([req], [infoLine, ⟨.err, "[ERR]: Failed to parse VMs JSON: " ++ e ++ "\n"⟩])
      | .ok vms =>
        let resolved := vms.map fun vm => { vm with resourceGroup := parseResourceGroup vm.id }
        let starts := vmStartLoop token env i subscriptionID 0 resolved
        (req :: starts.1, infoLine :: starts.2)
    else
      ([req], [infoLine,
        ⟨.err, "[ERR]: Unexpected status for VMs: " ++ toString status ++ "\n"⟩])

/-- The subscription loop of `main` over the decoded subscription ids,
starting at position `i`. -/
def subscriptionLoop (token : String) (env : Env) :
    Nat → List String → List Request × List LogLine
  | _, [] => ([], [])
  | i, subscriptionID :: rest =>
    let cur := subscriptionStep token env i subscriptionID
    let rest' := subscriptionLoop token env (i + 1) rest
    (cur.1 ++ rest'.1, cur.2 ++ rest'.2)

/-- `func main` of `main.go`, as a function from the environment to the
run's observable behaviour.  `os.Exit(1)` becomes exit code 1; falling
off the end of `main` becomes exit code 0. -/
def mainRun (env : Env) : Output :=
  match getAzureAccessToken env with
  | .error e =>
    ⟨[.acquireToken (.error e)],
      [⟨.err, "[ERR]: Failed to get Azure token: " ++ e ++ "\n"⟩], 1⟩
  | .ok token =>
    let acq : Event := .acquireToken (.ok token)
    let subReq : Request := ⟨.GET, subscriptionURL, token⟩
    match env.subsRes with
    | .transportError e =>
      ⟨[acq, .request subReq],
        [⟨.err, "[ERR]: Failed to fetch subscriptions: " ++ e ++ "\n"⟩], 1⟩
    | .http status decoded =>
      if status = statusOK then
        match decoded with
        | .error e =>
          ⟨[acq, .request subReq],
            [⟨.err, "[ERR]: Failed to parse subscriptions JSON: " ++ e ++ "\n"⟩], 1⟩
        | .ok subs =>
          let rest := subscriptionLoop token env 0 subs
          ⟨acq :: .request subReq :: rest.1.map .request, rest.2, 0⟩
      else
        ⟨[acq, .request subReq],
          [⟨.err, "[ERR]: Unexpected status for subscriptions: " ++ toString status ++ "\n"⟩], 1⟩

/-! ## Structural lemmas about the loops -/

/-- The start loop issues exactly one POST per VM, in list order, with the
URL built from the loop's subscription id and the VM's own fields; the
outcomes of the start calls never change which requests are issued. -/
theorem vmStartLoop_fst (token : String) (env : Env) (i : Nat)
    (subscriptionID : String) (j : Nat) (vms : List VirtualMachine) :
    (vmStartLoop token env i subscriptionID j vms).1
      = vms.map fun vm =>
          (⟨.POST, startURL subscriptionID vm.resourceGroup vm.name, token⟩ : Request) := by
  induction vms generalizing j with
  | nil => rfl
  | cons vm rest ih => simp [vmStartLoop, ih]

/-- When the VM list for subscription `i` decodes to `vms`, the step for
that subscription issues the VM-list GET followed by one start POST per
decoded VM, whose resource group is parsed from that VM's own id. -/
theorem subscriptionStep_fst_ok (token : String) (env : Env) (i : Nat)
    (subscriptionID : String) (vms : List VirtualMachine)
    (h : env.vmsRes i = .http 200 (.ok vms)) :
    (subscriptionStep token env i subscriptionID).1
      = ⟨.GET, vmListURL subscriptionID, token⟩ ::
          vms.map fun vm =>
            (⟨.POST, startURL subscriptionID (parseResourceGroup vm.id) vm.name, token⟩ :
              Request) := by
  simp only [subscriptionStep, h, statusOK, if_pos, vmStartLoop_fst, List.map_map]
  rfl

theorem filter_map_of_false {α β : Type} (f : α → β) (p : β → Bool) (l : List α)
    (h : ∀ a, p (f a) = false) : (l.map f).filter p = [] := by
  induction l with
  | nil => rfl
  | cons a rest ih => simp [List.filter_cons, h a, ih]

/-- Whatever the outcome of its VM-list call, a subscription step issues
exactly one GET: the VM-list request. -/
theorem subscriptionStep_filter_get (token : String) (env : Env) (i : Nat)
    (subscriptionID : String) :
    ((subscriptionStep token env i subscriptionID).1.filter Request.isGet)
      = [⟨.GET, vmListURL subscriptionID, token⟩] := by
  unfold subscriptionStep
  cases h : env.vmsRes i with
  | transportError e => simp [Request.isGet]
  | http status decoded =>
    by_cases hst : status = statusOK
    · cases decoded with
      | error e => simp [hst, Request.isGet]
      | ok vms =>
        simp only [hst, if_pos, vmStartLoop_fst, List.filter_cons]
        rw [filter_map_of_false _ _ _ (fun vm => rfl)]
        rfl
    · simp [hst, Request.isGet]

/-- The subscription loop issues exactly one VM-list GET per subscription
id, in order, regardless of per-subscription outcomes. -/
theorem subscriptionLoop_filter_get (token : String) (env : Env)
    (i : Nat) (subs : List String) :
    ((subscriptionLoop token env i subs).1.filter Request.isGet)
      = subs.map fun sid => (⟨.GET, vmListURL sid, token⟩ : Request) := by
  induction subs generalizing i with
  | nil => rfl
  | cons sid rest ih =>
    simp only [subscriptionLoop, List.filter_append, ih, subscriptionStep_filter_get,
      List.map_cons]
    rfl

/-- Every request issued by a subscription step carries the loop's token. -/
theorem subscriptionStep_token (token : String) (env : Env) (i : Nat)
    (subscriptionID : String) :
    ∀ r ∈ (subscriptionStep token env i subscriptionID).1, r.token = token := by
  unfold subscriptionStep
  cases h : env.vmsRes i with
  | transportError e => simp
  | http status decoded =>
    by_cases hst : status = statusOK
    · cases decoded with
      | error e => simp [hst]
      | ok vms =>
        simp only [hst, if_pos, vmStartLoop_fst]
        intro r hr
        rcases List.mem_cons.mp hr with h1 | h1
        · rw [h1]
        · obtain ⟨vm, _, hvm⟩ := List.mem_map.mp h1
          rw [← hvm]
    · simp [hst]

/-- Every request issued by the subscription loop carries the token. -/
theorem subscriptionLoop_token (token : String) (env : Env)
    (i : Nat) (subs : List String) :
    ∀ r ∈ (subscriptionLoop token env i subs).1, r.token = token := by
  induction subs generalizing i with
  | nil => simp [subscriptionLoop]
  | cons sid rest ih =>
    simp only [subscriptionLoop]
    intro r hr
    rcases List.mem_append.mp hr with h1 | h1
    · exact subscriptionStep_token token env i sid r h1
    · exact ih (i + 1) r h1

theorem requests_map_request (l : List Request) :
    List.filterMap
        (fun e =>
          match e with
          | Event.request r => some r
          | Event.acquireToken _ => none)
        (l.map Event.request) = l := by
  induction l with
  | nil => rfl
  | cons r rest ih => simp [List.filterMap_cons, ih]

/-- On a successful outer stage, `mainRun` unfolds to the subscription
GET followed by the subscription loop, and exits 0. -/
theorem mainRun_ok (env : Env) (token : String) (subs : List String)
    (htok : env.tokenRes = .ok token)
    (hsubs : env.subsRes = .http 200 (.ok subs)) :
    mainRun env
      = ⟨Event.acquireToken (.ok token) ::
          Event.request ⟨.GET, subscriptionURL, token⟩ ::
          (subscriptionLoop token env 0 subs).1.map Event.request,
        (subscriptionLoop token env 0 subs).2, 0⟩ := by
  simp only [mainRun, getAzureAccessToken, htok, hsubs, statusOK, if_pos]

/-! ## Example environments used by the witnesses -/

/-- The VM of the spec's §8 example (resource group decoded as the JSON
zero value; `mainRun` overwrites it from the id). -/
def vmEx : VirtualMachine :=
  ⟨"/subscriptions/sub-1/resourceGroups/rg-a/providers/Microsoft.Compute/virtualMachines/vm1",
    "vm1", ""⟩

/-- Fully successful run: one subscription, one VM, all calls succeed. -/
def envEx : Env :=
  ⟨.ok "tok", .http 200 (.ok ["sub-1"]),
    fun _ => .http 200 (.ok [vmEx]),
    fun _ _ => .http 202⟩

/-- Run whose token acquisition fails. -/
def envFatal : Env :=
  ⟨.error "no credential", .http 200 (.ok []),
    fun _ => .http 200 (.ok []),
    fun _ _ => .http 202⟩

/-- Run where the VM-list call of the first subscription returns 500. -/
def envVmFail : Env :=
  ⟨.ok "tok", .http 200 (.ok ["sub-1", "sub-2"]),
    fun i => if i = 0 then .http 500 (.ok []) else .http 200 (.ok []),
    fun _ _ => .http 202⟩

/-- Run where every start call returns 409. -/
def envStartFail : Env :=
  ⟨.ok "tok", .http 200 (.ok ["sub-1"]),
    fun _ => .http 200 (.ok [vmEx]),
    fun _ _ => .http 409⟩

/-! ## Claims about the pipeline -/

/-- Claim C2: when the VM-list response for one subscription decodes to `vms`
(M descriptors), exactly M start attempts are made, one per descriptor in
list order, each POSTing to the start-action template instantiated with
the subscription id, the resource group parsed from that VM's own id,
the VM's name, and the fixed VM API version (part of `startURL`). -/
theorem vmstarter_c2 (token : String) (env : Env) (i : Nat)
    (subscriptionID : String) (vms : List VirtualMachine)
    (h : env.vmsRes i = .http 200 (.ok vms)) :
    (subscriptionStep token env i subscriptionID).1
      = ⟨.GET, vmListURL subscriptionID, token⟩ ::
          vms.map fun vm =>
            (⟨.POST, startURL subscriptionID (parseResourceGroup vm.id) vm.name, token⟩ :
              Request) :=
  subscriptionStep_fst_ok token env i subscriptionID vms h

/-- Witness for C2: the §8 example, one VM yielding exactly one POST to
the instantiated start URL. -/
theorem vmstarter_c2_witness :
    (subscriptionStep "tok" envEx 0 "sub-1").1
      = [⟨.GET,
          "https://management.azure.com/subscriptions/sub-1/providers/Microsoft.Compute/virtualMachines?api-version=2025-04-01",
          "tok"⟩,
        ⟨.POST,
          "https://management.azure.com/subscriptions/sub-1/resourceGroups/rg-a/providers/Microsoft.Compute/virtualMachines/vm1/start?api-version=2025-04-01",
          "tok"⟩] := by
  rw [vmstarter_c2 "tok" envEx 0 "sub-1" [vmEx] rfl]
  decide

theorem mainRun_requests_ok (env : Env) (token : String) (subs : List String)
    (htok : env.tokenRes = .ok token)
    (hsubs : env.subsRes = .http 200 (.ok subs)) :
    (mainRun env).requests
      = ⟨.GET, subscriptionURL, token⟩ :: (subscriptionLoop token env 0 subs).1 := by
  rw [mainRun_ok env token subs htok hsubs]
  simp only [Output.requests, List.filterMap_cons, requests_map_request]

/-- Claim C3: when the subscription list decodes to N ids, the VM-listing GET is
issued exactly N times, once per subscription id in order, whatever the
outcomes of the individual VM-list (and start) calls are. -/
theorem vmstarter_c3 (env : Env) (token : String) (subs : List String)
    (htok : env.tokenRes = .ok token)
    (hsubs : env.subsRes = .http 200 (.ok subs)) :
    ((mainRun env).requests.filter Request.isGet)
      = ⟨.GET, subscriptionURL, token⟩ ::
          subs.map fun sid => (⟨.GET, vmListURL sid, token⟩ : Request) := by
  rw [mainRun_requests_ok env token subs htok hsubs, List.filter_cons]
  simp only [subscriptionLoop_filter_get]
  rfl

/-- Witness for C3 on `envVmFail`: both subscriptions get their VM-list
GET although the first one's VM-list call fails. -/
theorem vmstarter_c3_witness :
    ((mainRun envVmFail).requests.filter Request.isGet)
      = ⟨.GET, subscriptionURL, "tok"⟩ ::
          (["sub-1", "sub-2"].map fun sid => (⟨.GET, vmListURL sid, "tok"⟩ : Request)) :=
  vmstarter_c3 envVmFail "tok" ["sub-1", "sub-2"] rfl rfl

/-- The condition under which `mainRun` aborts: token failure, or
transport/status/decode failure of the subscription list. -/
def fatalOutcome (env : Env) : Bool :=
  match env.tokenRes with
  | .error _ => true
  | .ok _ =>
    match env.subsRes with
    | .transportError _ => true
    | .http status decoded =>
      if status = statusOK then
        match decoded with
        | .error _ => true
        | .ok _ => false
      else true

/-- Claim C4: the run exits non-zero exactly when token acquisition fails, the
subscription-list call fails in transport, returns a non-200 status, or
its body fails to decode; in every such case no VM-list or VM-start
request is issued (every issued request is the subscription-list GET).
Every other run exits 0. -/
theorem vmstarter_c4 (env : Env) :
    ((mainRun env).exitCode ≠ 0 ↔ fatalOutcome env = true)
    ∧ (fatalOutcome env = true →
        ∀ r ∈ (mainRun env).requests, r.method = Method.GET ∧ r.url = subscriptionURL) := by
  cases htok : env.tokenRes with
  | error e =>
    constructor
    · simp [mainRun, getAzureAccessToken, htok, fatalOutcome]
    · intro _ r hr
      simp [mainRun, getAzureAccessToken, htok, Output.requests, List.filterMap_cons] at hr
  | ok token =>
    cases hsubs : env.subsRes with
    | transportError e =>
      constructor
      · simp [mainRun, getAzureAccessToken, htok, hsubs, fatalOutcome]
      · intro _ r hr
        simp only [mainRun, getAzureAccessToken, htok, hsubs, Output.requests,
          List.filterMap_cons, List.filterMap_nil, List.mem_singleton] at hr
        subst hr
        exact ⟨rfl, rfl⟩
    | http status decoded =>
      by_cases hst : status = statusOK
      · cases decoded with
        | error e =>
          constructor
          · simp [mainRun, getAzureAccessToken, htok, hsubs, fatalOutcome, hst]
          · intro _ r hr
            simp only [mainRun, getAzureAccessToken, htok, hsubs, hst, if_pos,
              Output.requests, List.filterMap_cons, List.filterMap_nil,
              List.mem_singleton] at hr
            subst hr
            exact ⟨rfl, rfl⟩
        | ok subs =>
          constructor
          · simp [mainRun, getAzureAccessToken, htok, hsubs, fatalOutcome, hst]
          · intro hfat
            exfalso
            simp [fatalOutcome, htok, hsubs, hst] at hfat
      · constructor
        · simp [mainRun, getAzureAccessToken, htok, hsubs, fatalOutcome, hst]
        · intro _ r hr
          simp only [Output.requests, mainRun, getAzureAccessToken, htok, hsubs] at hr
          rw [if_neg hst] at hr
          simp only [List.filterMap_cons, List.filterMap_nil, List.mem_singleton] at hr
          subst hr
          exact ⟨rfl, rfl⟩

/-- Witness for C4: the token-failure run exits non-zero and issues no
request at all. -/
theorem vmstarter_c4_witness :
    (mainRun envFatal).exitCode ≠ 0 ∧ (mainRun envFatal).requests = [] :=
  ⟨(vmstarter_c4 envFatal).1.mpr (by decide), by decide⟩

/-- The conditions under which `main` skips a subscription: transport
error, non-200 status, or decode failure of its VM-list call. -/
def vmListFails : CallResult (List VirtualMachine) → Bool
  | .transportError _ => true
  | .http status decoded =>
    if status = statusOK then
      match decoded with
      | .error _ => true
      | .ok _ => false
    else true

/-- Claim C5: when subscription `i`'s VM-list call fails (transport, non-200,
or decode), that subscription's step issues no start attempt (only its
VM-list GET), logs an error, and the rest of the run is unaffected:
every subscription in the list still gets its VM-list request and the
run exits 0. -/
theorem vmstarter_c5 (env : Env) (token : String) (subs : List String)
    (i : Nat) (subscriptionID : String)
    (htok : env.tokenRes = .ok token)
    (hsubs : env.subsRes = .http 200 (.ok subs))
    (hfail : vmListFails (env.vmsRes i) = true) :
    (subscriptionStep token env i subscriptionID).1
        = [⟨.GET, vmListURL subscriptionID, token⟩]
    ∧ (∃ m, (⟨.err, m⟩ : LogLine) ∈ (subscriptionStep token env i subscriptionID).2)
    ∧ (mainRun env).exitCode = 0
    ∧ ((mainRun env).requests.filter Request.isGet)
        = ⟨.GET, subscriptionURL, token⟩ ::
            subs.map fun sid => (⟨.GET, vmListURL sid, token⟩ : Request) := by
  refine ⟨?_, ?_, ?_, ?_⟩
  · unfold subscriptionStep
    cases h : env.vmsRes i with
    | transportError e => rfl
    | http status decoded =>
      rw [h] at hfail
      by_cases hst : status = statusOK
      · cases decoded with
        | error e => simp [hst]
        | ok vms => simp [vmListFails, hst] at hfail
      · simp [hst]
  · unfold subscriptionStep
    cases h : env.vmsRes i with
    | transportError e =>
      exact ⟨_, List.mem_cons_of_mem _ (List.mem_cons_self _ _)⟩
    | http status decoded =>
      rw [h] at hfail
      by_cases hst : status = statusOK
      · cases decoded with
        | error e =>
          refine ⟨"[ERR]: Failed to parse VMs JSON: " ++ e ++ "\n", ?_⟩
          simp [hst]
        | ok vms => simp [vmListFails, hst] at hfail
      · refine ⟨"[ERR]: Unexpected status for VMs: " ++ toString status ++ "\n", ?_⟩
        simp [hst]
  · rw [mainRun_ok env token subs htok hsubs]
  · rw [mainRun_requests_ok env token subs htok hsubs, List.filter_cons]
    simp only [subscriptionLoop_filter_get]
    rfl

/-- Witness for C5 on `envVmFail`: subscription at position 0 fails its
VM-list call with status 500, issues only its VM-list GET, and both
subscriptions are still attempted with exit code 0. -/
theorem vmstarter_c5_witness :
    (subscriptionStep "tok" envVmFail 0 "sub-1").1 = [⟨.GET, vmListURL "sub-1", "tok"⟩]
    ∧ (mainRun envVmFail).exitCode = 0
    ∧ ((mainRun envVmFail).requests.filter Request.isGet)
        = ⟨.GET, subscriptionURL, "tok"⟩ ::
            (["sub-1", "sub-2"].map fun sid => (⟨.GET, vmListURL sid, "tok"⟩ : Request)) := by
  have h := vmstarter_c5 envVmFail "tok" ["sub-1", "sub-2"] 0 "sub-1" rfl rfl (by decide)
  exact ⟨h.1, h.2.2.1, h.2.2.2⟩

/-- The conditions under which a start attempt is logged as failed:
transport error or any status other than 202. -/
def startFails : StartResult → Bool
  | .transportError _ => true
  | .http status => if status = statusAccepted then false else true

/-- A failing start outcome for the VM at offset `k` of the loop produces
an error log line. -/
theorem vmStartLoop_err (token : String) (env : Env) (i : Nat)
    (subscriptionID : String) (vms : List VirtualMachine) (j0 k : Nat)
    (hk : k < vms.length)
    (hfail : startFails (env.startRes i (j0 + k)) = true) :
    ∃ m, (⟨.err, m⟩ : LogLine) ∈ (vmStartLoop token env i subscriptionID j0 vms).2 := by
  induction vms generalizing j0 k with
  | nil => exact absurd hk (by simp)
  | cons vm rest ih =>
    cases k with
    | zero =>
      rw [Nat.add_zero] at hfail
      cases hs : env.startRes i j0 with
      | transportError e =>
        refine ⟨"[ERR]: Failed to start VM " ++ vm.name ++ ": " ++ e ++ "\n", ?_⟩
        simp [vmStartLoop, hs]
      | http status =>
        rw [hs] at hfail
        by_cases hacc : status = statusAccepted
        · simp [startFails, hacc] at hfail
        · refine ⟨"[ERR]: Unexpected status for starting VM " ++ vm.name ++ ": " ++
            toString status ++ "\n    SubscriptionID: " ++ subscriptionID ++
            "\n    ResourceGroup: " ++ vm.resourceGroup ++ "\n    VM Name: " ++
            vm.name ++ "\n    URL: " ++
            startURL subscriptionID vm.resourceGroup vm.name ++ "\n", ?_⟩
          simp only [vmStartLoop, hs]
          rw [if_neg hacc]
          exact List.mem_cons_of_mem _ (List.mem_cons_self _ _)
    | succ k' =>
      have hfail' : startFails (env.startRes i ((j0 + 1) + k')) = true := by
        rw [show (j0 + 1) + k' = j0 + (k' + 1) by omega]
        exact hfail
      obtain ⟨m, hm⟩ := ih (j0 + 1) k' (by simpa using hk) hfail'
      exact ⟨m, List.mem_cons_of_mem _ (List.mem_cons_of_mem _ hm)⟩

/-- Claim C6: a VM whose start call fails (transport error or any status other
than 202, the only success status) gets an error logged, and processing
continues: the start loop still issues one POST for every VM of the
subscription whatever the start outcomes are, every subscription still
gets its VM-list request, and the run exits 0. -/
theorem vmstarter_c6 (env : Env) (token : String) (subs : List String)
    (i j : Nat) (subscriptionID : String) (vms : List VirtualMachine)
    (htok : env.tokenRes = .ok token)
    (hsubs : env.subsRes = .http 200 (.ok subs))
    (hfail : startFails (env.startRes i j) = true) :
    (vmStartLoop token env i subscriptionID 0 vms).1
        = vms.map (fun vm =>
            (⟨.POST, startURL subscriptionID vm.resourceGroup vm.name, token⟩ : Request))
    ∧ (j < vms.length →
        ∃ m, (⟨.err, m⟩ : LogLine) ∈ (vmStartLoop token env i subscriptionID 0 vms).2)
    ∧ (mainRun env).exitCode = 0
    ∧ ((mainRun env).requests.filter Request.isGet)
        = ⟨.GET, subscriptionURL, token⟩ ::
            subs.map fun sid => (⟨.GET, vmListURL sid, token⟩ : Request) := by
  refine ⟨vmStartLoop_fst token env i subscriptionID 0 vms, ?_, ?_, ?_⟩
  · intro hj
    refine vmStartLoop_err token env i subscriptionID vms 0 j hj ?_
    rw [Nat.zero_add]
    exact hfail
  · rw [mainRun_ok env token subs htok hsubs]
  · rw [mainRun_requests_ok env token subs htok hsubs, List.filter_cons]
    simp only [subscriptionLoop_filter_get]
    rfl

/-- Witness for C6 on `envStartFail`: the lone VM's start call returns
409, the loop still issues its POST, and the run exits 0. -/
theorem vmstarter_c6_witness :
    (vmStartLoop "tok" envStartFail 0 "sub-1" 0 [vmEx]).1
        = [⟨.POST, startURL "sub-1" "" "vm1", "tok"⟩]
    ∧ (mainRun envStartFail).exitCode = 0 := by
  have h := vmstarter_c6 envStartFail "tok" ["sub-1"] 0 0 "sub-1" [vmEx] rfl rfl (by decide)
  exact ⟨h.1, h.2.2.1⟩

theorem countP_map_request (l : List Request) :
    List.countP Event.isAcquire (l.map Event.request) = 0 := by
  induction l with
  | nil => rfl
  | cons r rest ih => simp [List.countP_cons, Event.isAcquire, ih]

/-- Claim C7: the token is acquired exactly once per run and before any
management-API call (the acquisition event heads the event list and no
other acquisition occurs), and every request issued during the run
carries that same token value unchanged. -/
theorem vmstarter_c7 (env : Env) :
    ((mainRun env).events.countP Event.isAcquire = 1)
    ∧ (∃ rest, (mainRun env).events = Event.acquireToken env.tokenRes :: rest
        ∧ ∀ e ∈ rest, Event.isAcquire e = false)
    ∧ ∀ token, env.tokenRes = .ok token →
        ∀ r ∈ (mainRun env).requests, r.token = token := by
  cases htok : env.tokenRes with
  | error e =>
    refine ⟨?_, ⟨[], ?_, by simp⟩, ?_⟩
    · simp [mainRun, getAzureAccessToken, htok, List.countP_cons, Event.isAcquire]
    · simp [mainRun, getAzureAccessToken, htok]
    · intro token htok' r hr
      simp at htok'
  | ok token0 =>
    have hreq3 : ∀ subs : List String, env.subsRes = .http 200 (.ok subs) →
        ∀ token, env.tokenRes = .ok token →
        ∀ r ∈ (mainRun env).requests, r.token = token := by
      intro subs hsubs token htok' r hr
      have htt : token0 = token := by
        have h2 := htok.symm.trans htok'
        injection h2
      rw [mainRun_requests_ok env token0 subs htok hsubs] at hr
      rcases List.mem_cons.mp hr with h1 | h1
      · rw [h1]
        exact htt
      · rw [← htt]
        exact subscriptionLoop_token token0 env 0 subs r h1
    cases hsubs : env.subsRes with
    | transportError e =>
      refine ⟨?_, ⟨[.request ⟨.GET, subscriptionURL, token0⟩], ?_, by simp [Event.isAcquire]⟩, ?_⟩
      · simp [mainRun, getAzureAccessToken, htok, hsubs, List.countP_cons, Event.isAcquire]
      · simp [mainRun, getAzureAccessToken, htok, hsubs]
      · intro token htok' r hr
        have htt : token0 = token := by
          injection htok'
        simp only [mainRun, getAzureAccessToken, htok, hsubs, Output.requests,
          List.filterMap_cons, List.filterMap_nil, List.mem_singleton] at hr
        subst hr
        exact htt
    | http status decoded =>
      by_cases hst : status = statusOK
      · cases decoded with
        | error e =>
          refine ⟨?_, ⟨[.request ⟨.GET, subscriptionURL, token0⟩], ?_, by simp [Event.isAcquire]⟩, ?_⟩
          · simp [mainRun, getAzureAccessToken, htok, hsubs, hst, List.countP_cons,
              Event.isAcquire]
          · simp [mainRun, getAzureAccessToken, htok, hsubs, hst]
          · intro token htok' r hr
            have htt : token0 = token := by
              injection htok'
            simp only [mainRun, getAzureAccessToken, htok, hsubs, hst, if_pos,
              Output.requests, List.filterMap_cons, List.filterMap_nil,
              List.mem_singleton] at hr
            subst hr
            exact htt
        | ok subs =>
          subst hst
          have hsubs' : env.subsRes = CallResult.http 200 (Except.ok subs) := hsubs
          refine ⟨?_, ?_, ?_⟩
          · rw [mainRun_ok env token0 subs htok hsubs']
            simp [List.countP_cons, Event.isAcquire, countP_map_request]
          · refine ⟨Event.request ⟨.GET, subscriptionURL, token0⟩ ::
              (subscriptionLoop token0 env 0 subs).1.map Event.request, ?_, ?_⟩
            · rw [mainRun_ok env token0 subs htok hsubs']
            · intro ev hev
              rcases List.mem_cons.mp hev with h1 | h1
              · rw [h1]
                rfl
              · obtain ⟨r, _, hre⟩ := List.mem_map.mp h1
                rw [← hre]
                rfl
          · intro token htok''
            exact hreq3 subs hsubs' token (htok.trans htok'')
      · refine ⟨?_, ⟨[.request ⟨.GET, subscriptionURL, token0⟩], ?_, by simp [Event.isAcquire]⟩, ?_⟩
        · simp only [mainRun, getAzureAccessToken, htok, hsubs]
          rw [if_neg hst]
          simp [List.countP_cons, Event.isAcquire]
        · simp only [mainRun, getAzureAccessToken, htok, hsubs]
          rw [if_neg hst]
        · intro token htok' r hr
          have htt : token0 = token := by
            injection htok'
          simp only [Output.requests, mainRun, getAzureAccessToken, htok, hsubs] at hr
          rw [if_neg hst] at hr
          simp only [List.filterMap_cons, List.filterMap_nil, List.mem_singleton] at hr
          subst hr
          exact htt

/-- Witness for C7 on the successful example run: one acquisition event,
and the subscription-list request carries the acquired token. -/
theorem vmstarter_c7_witness :
    (mainRun envEx).events.countP Event.isAcquire = 1
    ∧ (⟨.GET, subscriptionURL, "tok"⟩ : Request).token = "tok" :=
  ⟨(vmstarter_c7 envEx).1,
   (vmstarter_c7 envEx).2.2 "tok" rfl ⟨.GET, subscriptionURL, "tok"⟩ (by decide)⟩

/-- Request creation that accepts everything (all URLs the program
builds are well-formed template instantiations). -/
def okCreate : String → String → Except String Unit := fun _ _ => .ok ()

/-- Request creation behaving as `net/http` does on the URL `:`:
`url.Parse ":"` fails with `missing protocol scheme`, so
`http.NewRequestWithContext` returns an error for it. -/
def failCreateColon : String → String → Except String Unit := fun _ url =>
  if url = ":" then .error "parse \":\": missing protocol scheme" else .ok ()

/-- A transport that always answers 200: used to observe that no
transport call is made on a creation error. -/
def okTransport : HttpRequest → Except String HttpResponse := fun _ => .ok ⟨200, ""⟩

/-- Claim C8 counterexample: the claim quantifies over *every* method and
URL, but at method `GET` and the unparseable URL `:` the source's
`http.NewRequestWithContext` branch returns a creation error, so
`sendRequest` returns that wrapped error and performs no transport call:
its result is not the transport's outcome on the built request (the
always-200 transport's answer is never returned), refuting the
unconditional single-transport-call claim. -/
theorem vmstarter_c8_counterexample :
    sendRequest failCreateColon okTransport "GET" ":" "tok" none
      = .error "failed to create request: parse \":\": missing protocol scheme"
    ∧ sendRequest failCreateColon okTransport "GET" ":" "tok" none
      ≠ okTransport ⟨"GET", ":",
          [("Authorization", "Bearer tok"), ("Content-Type", "application/json")],
          none, 30⟩ := by
  constructor
  · rfl
  · intro h
    exact Except.noConfusion h

/-- Claim C8 (amended): for every method, URL and token *accepted by
request creation*, `sendRequest` performs exactly one transport call, on
a request whose `Authorization` header is exactly `Bearer <token>`,
whose `Content-Type` is `application/json`, which carries no body and a
30-second timeout; the transport's outcome (raw response or transport
error) is returned unchanged, with no retry and no interpretation of the
status code.  When request creation fails, `sendRequest` returns the
creation error wrapped with `failed to create request:` and makes no
transport call. -/
theorem vmstarter_c8 (newRequest : String → String → Except String Unit)
    (transport : HttpRequest → Except String HttpResponse)
    (method url token : String) (body : Option (List Nat)) :
    (newRequest method url = .ok () →
      sendRequest newRequest transport method url token body
        = transport
            ⟨method, url,
              [("Authorization", "Bearer " ++ token),
                ("Content-Type", "application/json")],
              none, 30⟩)
    ∧ ∀ e, newRequest method url = .error e →
        sendRequest newRequest transport method url token body
          = .error ("failed to create request: " ++ e) := by
  constructor
  · intro h
    unfold sendRequest
    rw [h]
  · intro e h
    unfold sendRequest
    rw [h]

/-- Witness for C8: with creation succeeding, both the subscription-list
GET and a start POST go through a single transport call with the exact
headers; with creation failing on the URL `:`, the wrapped error comes
back. -/
theorem vmstarter_c8_witness :
    sendRequest okCreate okTransport "GET" subscriptionURL "tok" none
      = okTransport
          ⟨"GET", subscriptionURL,
            [("Authorization", "Bearer tok"), ("Content-Type", "application/json")],
            none, 30⟩
    ∧ sendRequest failCreateColon okTransport "GET" ":" "tok" none
      = .error "failed to create request: parse \":\": missing protocol scheme" :=
  ⟨(vmstarter_c8 okCreate okTransport "GET" subscriptionURL "tok" none).1 rfl,
   (vmstarter_c8 failCreateColon okTransport "GET" ":" "tok" none).2
     "parse \":\": missing protocol scheme" rfl⟩
